import Mathlib

/-!
Shallow embedding of the graph normalizing-flow model in `src/gf/models/gf.py`
(classes `ActNorm`, `OneByOneConv`, `MLP`, `GFLayerNSF`, `GF`), together with
spec-modelled stand-ins for the repository modules that are not part of the
provided sources (`gf.utils.construct_embedding_mask`, `gf.modules.splines.
unconstrained_RQS`, `gf.modules.attn.ISAB`, `gf.models.ep.EdgePredictor`).

Tensors of shape (batch, max_nodes, dim) are modelled as curried functions over
`Fin`, floating point numbers as real numbers, and PyTorch broadcasting of a
one-dimensional tensor against a three-dimensional one is modelled explicitly
(including its failure case) by `addBroadcast`.
-/

noncomputable section

/-- A float tensor of shape (batch, max_nodes, dim). -/
abbrev Tensor3 (Nb N D : ℕ) : Type := Fin Nb → Fin N → Fin D → ℝ

/-- A float tensor of shape (batch,), e.g. the node-count vector `V` or a
per-graph log-determinant. -/
abbrev Vec (Nb : ℕ) : Type := Fin Nb → ℝ

/-- A batch of adjacency matrices, shape (batch, max_nodes, max_nodes). -/
abbrev Adj (Nb N : ℕ) : Type := Fin Nb → Fin N → Fin N → ℝ

/-- Position (i, j) is a valid (non-padding) node slot: row j of graph i is
valid iff j < V[i]. -/
abbrev validPos {Nb N : ℕ} (v : Vec Nb) (i : Fin Nb) (j : Fin N) : Prop :=
  (j : ℝ) < v i

/-- Modelled from the spec: `construct_embedding_mask` lives in `gf.utils`,
which is not among the provided sources.  The spec (sections 2 and 3) defines
it: a 0/1 mask of shape (batch, max_nodes) derived deterministically from the
node counts, where row j of graph i is valid iff j < V[i]. -/
def construct_embedding_mask {Nb N : ℕ} (v : Vec Nb) : Fin Nb → Fin N → ℝ :=
  fun i j => if validPos v i j then 1 else 0

/-- PyTorch-style broadcast addition of a shape-(L,) tensor onto a
shape-(Nb, N, D) tensor (as in `log_det += torch.sum(...)` and
`log_det + ld1 + ld2` in `GFLayerNSF.backward`).  Aligning trailing
dimensions, (L,) is compatible with (Nb, N, D) iff L = D or L = 1; the vector
entry picked for position (i, j, k) is the one at index k.  Any other L raises
a RuntimeError, modelled as `none`. -/
def addBroadcast {Nb N D L : ℕ} (t : Tensor3 Nb N D) (w : Vec L) :
    Option (Tensor3 Nb N D) :=
  if h : L = D then
    some (fun i j k => t i j k + w (Fin.cast h.symm k))
  else if h1 : L = 1 then
    some (fun i j _k => t i j _k + w ⟨0, by omega⟩)
  else
    none

lemma addBroadcast_same {Nb N D : ℕ} (t : Tensor3 Nb N D) (w : Vec D) :
    addBroadcast t w = some (fun i j k => t i j k + w k) := by
  unfold addBroadcast
  rw [dif_pos rfl]
  rfl

lemma addBroadcast_mismatch {Nb N D L : ℕ} (t : Tensor3 Nb N D) (w : Vec L)
    (h : L ≠ D) (h1 : L ≠ 1) : addBroadcast t w = none := by
  unfold addBroadcast
  rw [dif_neg h, dif_neg h1]

lemma addBroadcast_one {Nb N D : ℕ} (t : Tensor3 Nb N D) (w : Vec 1) :
    addBroadcast t w = some (fun i j k => t i j k + w 0) := by
  unfold addBroadcast
  by_cases h : (1 : ℕ) = D
  · rw [dif_pos h]
    refine congrArg some ?_
    funext i j k
    congr 1
    exact congrArg w (Subsingleton.elim _ _)
  · rw [dif_neg h, dif_pos rfl]
    rfl

/-- ActNorm layer (gf.py lines 16-39).  The learnable per-feature shift `mu`
and log-scale `log_sigma` are stored with shape (1, 1, dim) exactly as in the
source and broadcast over the batch and node axes. -/
structure ActNorm (D : ℕ) where
  mu : Tensor3 1 1 D
  log_sigma : Tensor3 1 1 D

/-- `ActNorm.forward` (gf.py lines 31-34): `z = x * exp(log_sigma) + mu`,
`log_det = sum(log_sigma).repeat(batch) * v`. -/
def ActNorm.forward {D Nb N : ℕ} (p : ActNorm D) (x : Tensor3 Nb N D)
    (v : Vec Nb) : Tensor3 Nb N D × Vec Nb :=
  (fun i j k => x i j k * Real.exp (p.log_sigma 0 0 k) + p.mu 0 0 k,
   fun i => (∑ a : Fin 1, ∑ b : Fin 1, ∑ k, p.log_sigma a b k) * v i)

/-- `ActNorm.backward` (gf.py lines 36-39): `x = (z - mu) / exp(log_sigma)`,
`log_det = -sum(log_sigma).repeat(batch) * v`. -/
def ActNorm.backward {D Nb N : ℕ} (p : ActNorm D) (z : Tensor3 Nb N D)
    (v : Vec Nb) : Tensor3 Nb N D × Vec Nb :=
  (fun i j k => (z i j k - p.mu 0 0 k) / Real.exp (p.log_sigma 0 0 k),
   fun i => -(∑ a : Fin 1, ∑ b : Fin 1, ∑ k, p.log_sigma a b k) * v i)

/-- The second component of `torch.slogdet`: log of the absolute value of the
determinant. -/
def slogdetAbs {D : ℕ} (W : Matrix (Fin D) (Fin D) ℝ) : ℝ :=
  Real.log |W.det|

/-- Invertible 1x1 convolution (gf.py lines 42-66).  `W` is the learnable
mixing matrix; `W_inv` is the lazily-computed cached inverse, `None` right
after `__init__` (line 54). -/
structure OneByOneConv (D : ℕ) where
  W : Matrix (Fin D) (Fin D) ℝ
  W_inv : Option (Matrix (Fin D) (Fin D) ℝ)

/-- `OneByOneConv.forward` (gf.py lines 56-59): `z = x @ W`,
`log_det = slogdet(W)[1].repeat(batch) * v`. -/
def OneByOneConv.forward {D Nb N : ℕ} (s : OneByOneConv D)
    (x : Tensor3 Nb N D) (v : Vec Nb) : Tensor3 Nb N D × Vec Nb :=
  (fun i j => Matrix.vecMul (x i j) s.W,
   fun i => slogdetAbs s.W * v i)

/-- `OneByOneConv.backward` (gf.py lines 61-66).  If the cache `W_inv` is
`None` it is filled with `torch.inverse(W)`; otherwise the cached matrix is
used as-is.  The first component of the result is the updated layer state
(the mutation of `self.W_inv` performed by the source). -/
def OneByOneConv.backward {D Nb N : ℕ} (s : OneByOneConv D)
    (z : Tensor3 Nb N D) (v : Vec Nb) :
    OneByOneConv D × Tensor3 Nb N D × Vec Nb :=
  let Winv := match s.W_inv with
    | none => s.W⁻¹
    | some M => M
  (⟨s.W, some Winv⟩,
   fun i j => Matrix.vecMul (z i j) Winv,
   fun i => -(slogdetAbs s.W) * v i)

/-- A fully connected layer (`nn.Linear`): `y = x @ weight.T + bias`. -/
structure LinearLayer (inD outD : ℕ) where
  weight : Matrix (Fin outD) (Fin inD) ℝ
  bias : Fin outD → ℝ

def LinearLayer.apply {inD outD : ℕ} (l : LinearLayer inD outD)
    (x : Fin inD → ℝ) : Fin outD → ℝ :=
  fun k => (∑ m, l.weight k m * x m) + l.bias k

def reluF (t : ℝ) : ℝ := max t 0

/-- `MLP` (gf.py lines 69-84): Linear → ReLU → Linear → ReLU → Linear, with
constructor argument order (in_dim, out_dim, hidden_dim) as in the source. -/
structure MLP (in_dim out_dim hidden_dim : ℕ) where
  l1 : LinearLayer in_dim hidden_dim
  l2 : LinearLayer hidden_dim hidden_dim
  l3 : LinearLayer hidden_dim out_dim

def MLP.forward {i o h : ℕ} (m : MLP i o h) (x : Fin i → ℝ) : Fin o → ℝ :=
  m.l3.apply (fun a => reluF (m.l2.apply (fun b => reluF (m.l1.apply x b)) a))

/-- `torch.softmax` along a length-K axis. -/
def softmaxK {K : ℕ} (f : Fin K → ℝ) : Fin K → ℝ :=
  fun t => Real.exp (f t) / ∑ s, Real.exp (f s)

/-- `F.softplus`. -/
def softplusR (t : ℝ) : ℝ := Real.log (1 + Real.exp t)

/-- The per-position parameter triple of the rational-quadratic spline: K bin
widths, K bin heights, K-1 knot derivatives (the sizes produced by
`torch.split(out, K, dim=3)` on a last axis of size 3K-1). -/
structure SplineParams (K : ℕ) where
  W : Fin K → ℝ
  H : Fin K → ℝ
  D : Fin (K - 1) → ℝ

lemma reshape_index_lt {Dh S : ℕ} (k : Fin Dh) (t : Fin S) :
    k.val * S + t.val < S * Dh := by
  calc k.val * S + t.val < k.val * S + S := by omega
    _ = (k.val + 1) * S := by ring
    _ ≤ Dh * S := Nat.mul_le_mul_right S k.isLt
    _ = S * Dh := Nat.mul_comm Dh S

/-- The `reshape(batch_size, -1, embedding_dim // 2, 3 * K - 1)` step
(gf.py lines 112-113): row-major reindexing of a flat length-(3K-1)·(D/2)
feature vector as a (D/2) × (3K-1) block. -/
def reshapeSplit {K Dh : ℕ} (flat : Fin ((3 * K - 1) * Dh) → ℝ) (k : Fin Dh) :
    Fin (3 * K - 1) → ℝ :=
  fun t => flat ⟨k.val * (3 * K - 1) + t.val, reshape_index_lt k t⟩

/-- Lines 114-117 / 123-126 of gf.py: split the last axis into W, H, D chunks
of sizes K, K, K-1, softmax the widths and heights, scale them by 2B, and
softplus the derivatives. -/
def splitParams {K : ℕ} (tailB : ℝ) (raw : Fin (3 * K - 1) → ℝ) :
    SplineParams K :=
  ⟨fun t => 2 * tailB * softmaxK (fun s : Fin K => raw ⟨s.val, by omega⟩) t,
   fun t => 2 * tailB * softmaxK (fun s : Fin K => raw ⟨K + s.val, by omega⟩) t,
   fun t => softplusR (raw ⟨2 * K + t.val, by omega⟩)⟩

/-- Modelled from the spec: `unconstrained_RQS` lives in `gf.modules.splines`,
which is not among the provided sources.  Section 4.3 of the spec specifies
its contract: an elementwise invertible monotonic rational-quadratic map,
parameterised per position by bin widths, bin heights and knot derivatives
with a tail bound B, returning the transformed value together with its
per-element log-absolute-derivative; the inverse direction exactly undoes the
forward direction and their log-determinants negate.  The model carries the
map (first argument: the `inverse` flag, second: the tail bound) together
with exactly those spec invariants. -/
structure UnconstrainedRQS (K : ℕ) where
  apply : Bool → ℝ → SplineParams K → ℝ → ℝ × ℝ
  inverse_comp : ∀ tb p t, (apply true tb p (apply false tb p t).1).1 = t
  inverse_ld : ∀ tb p t,
    (apply true tb p (apply false tb p t).1).2 = -(apply false tb p t).2

/-- The identity spline: a concrete inhabitant of the spec contract, used to
build concrete coupling-layer instances. -/
def idRQS (K : ℕ) : UnconstrainedRQS K :=
  ⟨fun _ _ _ t => (t, 0), fun _ _ _ => rfl, fun _ _ _ => by simp⟩

/-- Neural spline flow coupling layer `GFLayerNSF` (gf.py lines 87-158) over
an embedding dimension of 2·Dh.  `f1` and `f2` stand for the two ISAB
attention encoders (`gf.modules.attn`, not among the provided sources): each
maps a per-graph set of Dh-dimensional node vectors plus a node-validity mask
to per-node hidden representations, at any number of nodes. -/
structure GFLayerNSF (Dh hidden K : ℕ) where
  B : ℝ
  f1 : (n : ℕ) → (Fin n → Fin Dh → ℝ) → (Fin n → Prop) → Fin n → Fin hidden → ℝ
  f2 : (n : ℕ) → (Fin n → Fin Dh → ℝ) → (Fin n → Prop) → Fin n → Fin hidden → ℝ
  base_network : MLP hidden ((3 * K - 1) * Dh) hidden
  conv : OneByOneConv (Dh + Dh)
  actnorm : ActNorm (Dh + Dh)

/-- Modelled from the spec: section 4.4 requires the attention encoder (ISAB,
not among the provided sources) to exclude masked keys from its attention
weighting so that invalid padding never influences valid-node outputs.  An
encoder respects the mask when its output at any valid position is unchanged
whenever the inputs agree on all valid positions. -/
def MaskRespects {Dh hidden : ℕ}
    (f : (n : ℕ) → (Fin n → Fin Dh → ℝ) → (Fin n → Prop) → Fin n →
      Fin hidden → ℝ) : Prop :=
  ∀ (n : ℕ) (a b : Fin n → Fin Dh → ℝ) (m : Fin n → Prop),
    (∀ j, m j → a j = b j) → ∀ j, m j → f n a m j = f n b m j

/-- `x[:, :, :embedding_dim // 2]`. -/
def lowerOf {Nb N Dh : ℕ} (x : Tensor3 Nb N (Dh + Dh)) : Tensor3 Nb N Dh :=
  fun i j k => x i j (Fin.castAdd Dh k)

/-- `x[:, :, embedding_dim // 2:]`. -/
def upperOf {Nb N Dh : ℕ} (x : Tensor3 Nb N (Dh + Dh)) : Tensor3 Nb N Dh :=
  fun i j k => x i j (Fin.natAdd Dh k)

/-- `torch.cat([lower, upper], dim = 2)`. -/
def catHalves {Nb N Dh : ℕ} (lo hi : Tensor3 Nb N Dh) :
    Tensor3 Nb N (Dh + Dh) :=
  fun i j => Fin.addCases (motive := fun _ => ℝ) (lo i j) (hi i j)

/-- The spline-parameter pipeline of gf.py lines 112-117 (and the three
analogous blocks): apply an attention encoder `f` to one half of the
embedding under the node mask, run the result through the base network
position-wise, reshape, split into W/H/D, softmax, scale by 2B, softplus. -/
def condParams {Nb N Dh hidden K : ℕ} (L : GFLayerNSF Dh hidden K)
    (f : (n : ℕ) → (Fin n → Fin Dh → ℝ) → (Fin n → Prop) → Fin n →
      Fin hidden → ℝ)
    (half : Tensor3 Nb N Dh) (v : Vec Nb) :
    Fin Nb → Fin N → Fin Dh → SplineParams K :=
  fun i j k =>
    splitParams L.B
      (reshapeSplit (MLP.forward L.base_network (f N (half i) (validPos v i) j)) k)

/-- Elementwise application of `unconstrained_RQS` with per-position
parameters; first component the transformed half, second the per-element
log-absolute-derivative. -/
def applyRQS {Nb N Dh K : ℕ} (rqs : UnconstrainedRQS K) (inverse : Bool)
    (tb : ℝ) (P : Fin Nb → Fin N → Fin Dh → SplineParams K)
    (h : Tensor3 Nb N Dh) : Tensor3 Nb N Dh × Tensor3 Nb N Dh :=
  (fun i j k => (rqs.apply inverse tb (P i j k) (h i j k)).1,
   fun i j k => (rqs.apply inverse tb (P i j k) (h i j k)).2)

/-- `torch.sum(ld * mask.unsqueeze(2), dim = (1, 2))`: per-element
log-determinants summed over nodes and features under the validity mask. -/
def maskedSum {Nb N Dh : ℕ} (ld : Tensor3 Nb N Dh) (v : Vec Nb) : Vec Nb :=
  fun i => ∑ j, ∑ k, ld i j k * construct_embedding_mask v i j

/-- Stage 1 of `GFLayerNSF.forward` (gf.py line 107): the ActNorm pass. -/
def GFLayerNSF.fwAct {Nb N Dh hidden K : ℕ} (L : GFLayerNSF Dh hidden K)
    (x : Tensor3 Nb N (Dh + Dh)) (v : Vec Nb) :
    Tensor3 Nb N (Dh + Dh) × Vec Nb :=
  ActNorm.forward L.actnorm x v

/-- Stage 2 of `GFLayerNSF.forward` (gf.py line 108): the invertible 1x1
convolution applied to the ActNorm output. -/
def GFLayerNSF.fwConv {Nb N Dh hidden K : ℕ} (L : GFLayerNSF Dh hidden K)
    (x : Tensor3 Nb N (Dh + Dh)) (v : Vec Nb) :
    Tensor3 Nb N (Dh + Dh) × Vec Nb :=
  OneByOneConv.forward L.conv (GFLayerNSF.fwAct L x v).1 v

/-- Stage 3 of `GFLayerNSF.forward` (gf.py lines 112-120): the upper half
spline-transformed with parameters predicted from the f1 encoding of the
lower half.  First component the transformed upper half, second the
per-element log-determinants. -/
def GFLayerNSF.fwUpper {Nb N Dh hidden K : ℕ} (rqs : UnconstrainedRQS K)
    (L : GFLayerNSF Dh hidden K) (x : Tensor3 Nb N (Dh + Dh)) (v : Vec Nb) :
    Tensor3 Nb N Dh × Tensor3 Nb N Dh :=
  applyRQS rqs false L.B
    (condParams L L.f1 (lowerOf (GFLayerNSF.fwConv L x v).1) v)
    (upperOf (GFLayerNSF.fwConv L x v).1)

/-- Stage 4 of `GFLayerNSF.forward` (gf.py lines 121-129): the lower half
spline-transformed with parameters predicted from the f2 encoding of the
already-transformed upper half. -/
def GFLayerNSF.fwLower {Nb N Dh hidden K : ℕ} (rqs : UnconstrainedRQS K)
    (L : GFLayerNSF Dh hidden K) (x : Tensor3 Nb N (Dh + Dh)) (v : Vec Nb) :
    Tensor3 Nb N Dh × Tensor3 Nb N Dh :=
  applyRQS rqs false L.B
    (condParams L L.f2 (GFLayerNSF.fwUpper rqs L x v).1 v)
    (lowerOf (GFLayerNSF.fwConv L x v).1)

/-- `GFLayerNSF.forward` (gf.py lines 104-130): ActNorm, then the linear mix,
then the two conditioned spline passes, concatenating the halves and
accumulating the (batch,)-shaped log-determinant: ActNorm + conv + the two
mask-summed spline contributions, in source order. -/
def GFLayerNSF.forward {Nb N Dh hidden K : ℕ} (rqs : UnconstrainedRQS K)
    (L : GFLayerNSF Dh hidden K) (x : Tensor3 Nb N (Dh + Dh)) (v : Vec Nb) :
    Tensor3 Nb N (Dh + Dh) × Vec Nb :=
  (catHalves (GFLayerNSF.fwLower rqs L x v).1 (GFLayerNSF.fwUpper rqs L x v).1,
   fun i =>
     (GFLayerNSF.fwAct L x v).2 i + (GFLayerNSF.fwConv L x v).2 i
       + maskedSum (GFLayerNSF.fwUpper rqs L x v).2 v i
       + maskedSum (GFLayerNSF.fwLower rqs L x v).2 v i)

/-- Stage 1 of `GFLayerNSF.backward` (gf.py lines 138-146): the lower half
inverted with parameters predicted from the f2 encoding of the (still
transformed) upper half. -/
def GFLayerNSF.bwLower {Nb N Dh hidden K : ℕ} (rqs : UnconstrainedRQS K)
    (L : GFLayerNSF Dh hidden K) (z : Tensor3 Nb N (Dh + Dh)) (v : Vec Nb) :
    Tensor3 Nb N Dh × Tensor3 Nb N Dh :=
  applyRQS rqs true L.B (condParams L L.f2 (upperOf z) v) (lowerOf z)

/-- Stage 2 of `GFLayerNSF.backward` (gf.py lines 147-155): the upper half
inverted with parameters predicted from the f1 encoding of the recovered
lower half. -/
def GFLayerNSF.bwUpper {Nb N Dh hidden K : ℕ} (rqs : UnconstrainedRQS K)
    (L : GFLayerNSF Dh hidden K) (z : Tensor3 Nb N (Dh + Dh)) (v : Vec Nb) :
    Tensor3 Nb N Dh × Tensor3 Nb N Dh :=
  applyRQS rqs true L.B
    (condParams L L.f1 (GFLayerNSF.bwLower rqs L z v).1 v) (upperOf z)

/-- Stage 3 of `GFLayerNSF.backward` (gf.py line 156): undo the 1x1
convolution on the re-concatenated halves. -/
def GFLayerNSF.bwConv {Nb N Dh hidden K : ℕ} (rqs : UnconstrainedRQS K)
    (L : GFLayerNSF Dh hidden K) (z : Tensor3 Nb N (Dh + Dh)) (v : Vec Nb) :
    OneByOneConv (Dh + Dh) × Tensor3 Nb N (Dh + Dh) × Vec Nb :=
  OneByOneConv.backward L.conv
    (catHalves (GFLayerNSF.bwLower rqs L z v).1 (GFLayerNSF.bwUpper rqs L z v).1)
    v

/-- Stage 4 of `GFLayerNSF.backward` (gf.py line 157): undo the ActNorm. -/
def GFLayerNSF.bwAct {Nb N Dh hidden K : ℕ} (rqs : UnconstrainedRQS K)
    (L : GFLayerNSF Dh hidden K) (z : Tensor3 Nb N (Dh + Dh)) (v : Vec Nb) :
    Tensor3 Nb N (Dh + Dh) × Vec Nb :=
  ActNorm.backward L.actnorm (GFLayerNSF.bwConv rqs L z v).2.1 v

/-- The tensor returned by `GFLayerNSF.backward`: the full mirror
composition. -/
def GFLayerNSF.backwardX {Nb N Dh hidden K : ℕ} (rqs : UnconstrainedRQS K)
    (L : GFLayerNSF Dh hidden K) (z : Tensor3 Nb N (Dh + Dh)) (v : Vec Nb) :
    Tensor3 Nb N (Dh + Dh) :=
  (GFLayerNSF.bwAct rqs L z v).1

/-- The per-graph scalar log-determinant contributions accumulated by
`GFLayerNSF.backward`: the two mask-summed spline terms plus the conv and
ActNorm terms (each of shape (batch,) in the source). -/
def GFLayerNSF.backwardPerGraphLD {Nb N Dh hidden K : ℕ}
    (rqs : UnconstrainedRQS K) (L : GFLayerNSF Dh hidden K)
    (z : Tensor3 Nb N (Dh + Dh)) (v : Vec Nb) : Vec Nb :=
  fun i =>
    maskedSum (GFLayerNSF.bwLower rqs L z v).2 v i
      + maskedSum (GFLayerNSF.bwUpper rqs L z v).2 v i
      + (GFLayerNSF.bwConv rqs L z v).2.2 i
      + (GFLayerNSF.bwAct rqs L z v).2 i

/-- `GFLayerNSF.backward` (gf.py lines 132-158).  Note that the source
initialises the log-determinant accumulator as `torch.zeros_like(z)` — a
(batch, max_nodes, embedding_dim) tensor — and then adds four (batch,)-shaped
contributions to it by broadcasting; each addition is an `addBroadcast`, and
the whole call raises (returns `none`) unless the batch size equals the
embedding dimension or 1. -/
def GFLayerNSF.backward {Nb N Dh hidden K : ℕ} (rqs : UnconstrainedRQS K)
    (L : GFLayerNSF Dh hidden K) (z : Tensor3 Nb N (Dh + Dh)) (v : Vec Nb) :
    Option (Tensor3 Nb N (Dh + Dh) × Tensor3 Nb N (Dh + Dh)) :=
  (addBroadcast (fun _ _ _ => (0 : ℝ))
      (maskedSum (GFLayerNSF.bwLower rqs L z v).2 v)).bind fun t1 =>
  (addBroadcast t1 (maskedSum (GFLayerNSF.bwUpper rqs L z v).2 v)).bind fun t2 =>
  (addBroadcast t2 (GFLayerNSF.bwConv rqs L z v).2.2).bind fun t3 =>
  (addBroadcast t3 (GFLayerNSF.bwAct rqs L z v).2).map fun t4 =>
  (GFLayerNSF.backwardX rqs L z v, t4)

/-- Stated from the spec's words (section 4.5, forward direction): ActNorm,
then linear mix, then split the embedding dimension into lower/upper halves;
predict spline parameters for the upper half from an attention (f1) encoding
of the lower half and transform the upper half; feed the transformed upper
half to the second attention encoder (f2) to predict spline parameters for
the lower half and transform it; concatenate, mask-summing every per-node
log-determinant contribution into the running total. -/
def GFLayerNSF.forwardSpecOrder {Nb N Dh hidden K : ℕ}
    (rqs : UnconstrainedRQS K) (L : GFLayerNSF Dh hidden K)
    (x : Tensor3 Nb N (Dh + Dh)) (v : Vec Nb) :
    Tensor3 Nb N (Dh + Dh) × Vec Nb :=
  let an := ActNorm.forward L.actnorm x v
  let lm := OneByOneConv.forward L.conv an.1 v
  let lowerH := lowerOf lm.1
  let upperH := upperOf lm.1
  let upperT := applyRQS rqs false L.B (condParams L L.f1 lowerH v) upperH
  let lowerT := applyRQS rqs false L.B (condParams L L.f2 upperT.1 v) lowerH
  (catHalves lowerT.1 upperT.1,
   fun i => an.2 i + lm.2 i + maskedSum upperT.2 v i + maskedSum lowerT.2 v i)

/-- Stated from the spec's words (section 4.5, backward direction): undo the
lower half's transform first, conditioning on the f2 encoding of the (still
transformed) upper half; then undo the upper half's transform conditioning on
the f1 encoding of the recovered lower half; then undo the linear mix; then
undo the ActNorm. -/
def GFLayerNSF.backwardSpecOrderX {Nb N Dh hidden K : ℕ}
    (rqs : UnconstrainedRQS K) (L : GFLayerNSF Dh hidden K)
    (z : Tensor3 Nb N (Dh + Dh)) (v : Vec Nb) : Tensor3 Nb N (Dh + Dh) :=
  let lowerT := applyRQS rqs true L.B (condParams L L.f2 (upperOf z) v) (lowerOf z)
  let upperT := applyRQS rqs true L.B (condParams L L.f1 lowerT.1 v) (upperOf z)
  let unmixed := (OneByOneConv.backward L.conv (catHalves lowerT.1 upperT.1) v).2.1
  (ActNorm.backward L.actnorm unmixed v).1

/-- When the batch size equals the embedding dimension 2·Dh, every broadcast
in `GFLayerNSF.backward` succeeds, and the returned log-determinant is the
full-shape tensor whose (i, j, k) entry is the per-graph contribution at
graph index k. -/
lemma GFLayerNSF.backward_batch_eq_dim {N Dh hidden K : ℕ}
    (rqs : UnconstrainedRQS K) (L : GFLayerNSF Dh hidden K)
    (z : Tensor3 (Dh + Dh) N (Dh + Dh)) (v : Vec (Dh + Dh)) :
    GFLayerNSF.backward rqs L z v =
      some (GFLayerNSF.backwardX rqs L z v,
        fun _i _j k => GFLayerNSF.backwardPerGraphLD rqs L z v k) := by
  unfold GFLayerNSF.backward
  rw [addBroadcast_same, Option.some_bind, addBroadcast_same, Option.some_bind,
    addBroadcast_same, Option.some_bind, addBroadcast_same, Option.map_some']
  refine congrArg some (Prod.ext rfl ?_)
  funext i j k
  show 0 + _ + _ + _ + _ = GFLayerNSF.backwardPerGraphLD rqs L z v k
  rw [zero_add]
  rfl

/-- When the batch size is 1 (and the embedding dimension 2·Dh is even, so
never 1 itself), the (1,)-shaped per-graph contributions broadcast as
scalars, and `GFLayerNSF.backward` returns a log-determinant tensor whose
every entry is the single graph's total contribution. -/
lemma GFLayerNSF.backward_batch_one {N Dh hidden K : ℕ}
    (rqs : UnconstrainedRQS K) (L : GFLayerNSF Dh hidden K)
    (z : Tensor3 1 N (Dh + Dh)) (v : Vec 1) :
    GFLayerNSF.backward rqs L z v =
      some (GFLayerNSF.backwardX rqs L z v,
        fun _i _j _k => GFLayerNSF.backwardPerGraphLD rqs L z v 0) := by
  unfold GFLayerNSF.backward
  rw [addBroadcast_one, Option.some_bind, addBroadcast_one, Option.some_bind,
    addBroadcast_one, Option.some_bind, addBroadcast_one, Option.map_some']
  refine congrArg some (Prod.ext rfl ?_)
  funext i j k
  show 0 + _ + _ + _ + _ = GFLayerNSF.backwardPerGraphLD rqs L z v 0
  rw [zero_add]
  rfl

/-- For any batch size other than 1 and the embedding dimension, the very
first in-place addition to the `zeros_like(z)` accumulator fails to
broadcast and `GFLayerNSF.backward` raises. -/
lemma GFLayerNSF.backward_batch_mismatch {Nb N Dh hidden K : ℕ}
    (rqs : UnconstrainedRQS K) (L : GFLayerNSF Dh hidden K)
    (hone : Nb ≠ 1) (hdim : Nb ≠ Dh + Dh)
    (z : Tensor3 Nb N (Dh + Dh)) (v : Vec Nb) :
    GFLayerNSF.backward rqs L z v = none := by
  unfold GFLayerNSF.backward
  rw [addBroadcast_mismatch _ _ hdim hone]
  rfl

/-- Modelled from the spec: `EdgePredictor` (gf/models/ep.py) is not among
the provided sources; section 4.7 gives its contract as consumed by `GF`:
`loss(X, A, V)` returns a per-graph scalar loss and `forward(X, V)` returns
pairwise logits, both accepting masked variable-size node sets. -/
structure EdgePredictor (Dm : ℕ) where
  loss : (Nb n : ℕ) → Tensor3 Nb n Dm → Adj Nb n → Vec Nb → Vec Nb
  logits : (Nb n : ℕ) → Tensor3 Nb n Dm → Vec Nb → Adj Nb n

/-- The flow stack `GF` (gf.py lines 160-226): two lists of coupling layers
(`flows_L` before the edge-prediction loss, `flows_Z` after), a trailing
ActNorm, and the edge predictor.  (`n_nodes_lambda` and `sample_prior` play
no role in the claims and are omitted.) -/
structure GF (Dh hidden K : ℕ) where
  flows_L : List (GFLayerNSF Dh hidden K)
  flows_Z : List (GFLayerNSF Dh hidden K)
  final_actnorm : ActNorm (Dh + Dh)
  ep : EdgePredictor (Dh + Dh)

/-- The `for flow in flows: X, LD = flow.forward(X, V); log_det += LD` loop
of `GF.forward`, starting from a given accumulator. -/
def runFlows {Dh hidden K Nb N : ℕ} (rqs : UnconstrainedRQS K)
    (flows : List (GFLayerNSF Dh hidden K)) (x : Tensor3 Nb N (Dh + Dh))
    (v : Vec Nb) (ld : Vec Nb) : Tensor3 Nb N (Dh + Dh) × Vec Nb :=
  flows.foldl
    (fun acc L =>
      ((GFLayerNSF.forward rqs L acc.1 v).1,
       fun i => acc.2 i + (GFLayerNSF.forward rqs L acc.1 v).2 i))
    (x, ld)

/-- The log-density of a standard Gaussian at one coordinate, as used by
`Normal(0, 1).log_prob` in `GF.forward`. -/
def stdNormalLogPdf (t : ℝ) : ℝ :=
  -(t ^ 2) / 2 - Real.log (Real.sqrt (2 * Real.pi))

/-- The mask built inside `GF.forward` (gf.py lines 208-210) by
`mask[i, :cnt.int()] = 1`.  Python slice assignment clamps the bound to the
row length, so a count larger than the padded node dimension silently marks
every position valid; no check or error is performed. -/
def gfMask {Nb N : ℕ} (v : Vec Nb) : Fin Nb → Fin N → ℝ :=
  fun i j => if (j : ℤ) < ⌊v i⌋ then 1 else 0

/-- `GF.forward` (gf.py lines 186-213): push through `flows_L`, take the
edge-predictor loss on the intermediate embeddings, continue through
`flows_Z` and the final ActNorm, mask-sum the standard-Gaussian log-density
of the final latent, and return `(prior_logprob + log_det) / V - ep_loss`
per graph alongside the latent. -/
def GF.forward {Dh hidden K Nb N : ℕ} (rqs : UnconstrainedRQS K)
    (g : GF Dh hidden K) (X : Tensor3 Nb N (Dh + Dh)) (A : Adj Nb N)
    (V : Vec Nb) : Tensor3 Nb N (Dh + Dh) × Vec Nb :=
  let r1 := runFlows rqs g.flows_L X V (fun _ => 0)
  let ep_loss := g.ep.loss Nb N r1.1 A V
  let r2 := runFlows rqs g.flows_Z r1.1 V r1.2
  let fa := ActNorm.forward g.final_actnorm r2.1 V
  let log_det := fun i => r2.2 i + fa.2 i
  let prior_logprob := fun i => ∑ j, ∑ k, stdNormalLogPdf (fa.1 i j k) * gfMask V i j
  (fa.1, fun i => (prior_logprob i + log_det i) / V i - ep_loss i)

/-- Stated from the spec's words (section 4.6): the embeddings after the
pre-edge-prediction stage `flows_L` only. -/
def GF.flowedL {Dh hidden K Nb N : ℕ} (rqs : UnconstrainedRQS K)
    (g : GF Dh hidden K) (X : Tensor3 Nb N (Dh + Dh)) (V : Vec Nb) :
    Tensor3 Nb N (Dh + Dh) × Vec Nb :=
  runFlows rqs g.flows_L X V (fun _ => 0)

/-- Stated from the spec's words (section 4.6): the edge-predictor loss is
computed against the true adjacency using the partially-flowed embeddings,
before `flows_Z`. -/
def GF.epTerm {Dh hidden K Nb N : ℕ} (rqs : UnconstrainedRQS K)
    (g : GF Dh hidden K) (X : Tensor3 Nb N (Dh + Dh)) (A : Adj Nb N)
    (V : Vec Nb) : Vec Nb :=
  g.ep.loss Nb N (GF.flowedL rqs g X V).1 A V

/-- Stated from the spec's words (section 4.6): continue through `flows_Z`
and the final ActNorm to reach latent space, carrying the total accumulated
log-determinant. -/
def GF.latent {Dh hidden K Nb N : ℕ} (rqs : UnconstrainedRQS K)
    (g : GF Dh hidden K) (X : Tensor3 Nb N (Dh + Dh)) (V : Vec Nb) :
    Tensor3 Nb N (Dh + Dh) × Vec Nb :=
  let r2 := runFlows rqs g.flows_Z (GF.flowedL rqs g X V).1 V
    (GF.flowedL rqs g X V).2
  ((ActNorm.forward g.final_actnorm r2.1 V).1,
   fun i => r2.2 i + (ActNorm.forward g.final_actnorm r2.1 V).2 i)

/-- Stated from the spec's words (section 4.6): the Gaussian log-probability
of the final latent restricted to valid nodes. -/
def maskedPriorLP {Nb N Dm : ℕ} (Z : Tensor3 Nb N Dm) (v : Vec Nb) : Vec Nb :=
  fun i => ∑ j, ∑ k, stdNormalLogPdf (Z i j k) * gfMask v i j

/-- `GF.backward` (gf.py lines 221-226): invert the final ActNorm, then each
`flows_Z` layer in reverse order, discarding log-determinants; `flows_L` is
not touched.  Exceptions raised by a layer's backward pass propagate
(`none`). -/
def GF.backward {Dh hidden K Nb N : ℕ} (rqs : UnconstrainedRQS K)
    (g : GF Dh hidden K) (Z : Tensor3 Nb N (Dh + Dh)) (V : Vec Nb) :
    Option (Tensor3 Nb N (Dh + Dh)) :=
  g.flows_Z.reverse.foldlM
    (fun z L => (GFLayerNSF.backward rqs L z V).map Prod.fst)
    (ActNorm.backward g.final_actnorm Z V).1

/-- Stated from the spec's words (section 4.6): invert the final ActNorm,
then each `flows_Z` coupling layer in reverse order (a right fold over
`flows_Z`), returning the intermediate embedding; `flows_L` does not
appear. -/
def GF.backwardSpec {Dh hidden K Nb N : ℕ} (rqs : UnconstrainedRQS K)
    (g : GF Dh hidden K) (Z : Tensor3 Nb N (Dh + Dh)) (V : Vec Nb) :
    Option (Tensor3 Nb N (Dh + Dh)) :=
  List.foldrM
    (fun L z => (GFLayerNSF.backward rqs L z V).map Prod.fst)
    (ActNorm.backward g.final_actnorm Z V).1
    g.flows_Z

/-- A concrete all-zero MLP with in_dim 1, out_dim 2, hidden_dim 1. -/
def mlp0 : MLP 1 2 1 :=
  ⟨⟨Matrix.of fun _ _ => 0, fun _ => 0⟩,
   ⟨Matrix.of fun _ _ => 0, fun _ => 0⟩,
   ⟨Matrix.of fun _ _ => 0, fun _ => 0⟩⟩

/-- A concrete coupling layer with embedding dimension 2 (Dh = 1), hidden
dimension 1, K = 1, tail bound 3, constant-zero attention encoders, zero base
network, identity mixing matrix with an empty inverse cache, and zero
ActNorm parameters. -/
def L0 : GFLayerNSF 1 1 1 :=
  ⟨3, fun _ _ _ _ _ => 0, fun _ _ _ _ _ => 0, mlp0, ⟨1, none⟩,
   ⟨fun _ _ _ => 0, fun _ _ _ => 0⟩⟩

/-- A zero input batch of 3 graphs with 1 node slot and embedding dim 2. -/
def x31 : Tensor3 3 1 2 := fun _ _ _ => 0

/-- Node counts for `x31`. -/
def v31 : Vec 3 := fun _ => 1

/-- Helper for the mask-insensitivity claim: congruence of the masked
log-determinant sum under agreement at valid positions; padded positions are
multiplied by a zero mask entry, so they contribute exactly zero on both
sides. -/
lemma maskedSum_congr {Nb N Dh : ℕ} (ld ld2 : Tensor3 Nb N Dh) (v : Vec Nb)
    (h : ∀ i j, validPos v i j → ∀ k, ld i j k = ld2 i j k) :
    maskedSum ld v = maskedSum ld2 v := by
  funext i
  unfold maskedSum
  refine Finset.sum_congr rfl fun j _ => ?_
  by_cases hv : validPos v i j
  · exact Finset.sum_congr rfl fun k _ => by rw [h i j hv k]
  · have hm : construct_embedding_mask v i j = 0 := by
      unfold construct_embedding_mask
      exact if_neg hv
    simp [hm]

/-- C1: the spec claims that for every coupling layer and valid (tensor,
node-count) pair, `backward(forward(x, v))` reproduces `x` and the two
log-determinants sum to zero.  The source's backward pass initialises its
log-determinant accumulator as `torch.zeros_like(z)` — a full
(batch, nodes, dim) tensor, unlike forward's `(batch,)` accumulator — so
adding the (batch,)-shaped contributions broadcasts, which raises a
RuntimeError whenever the batch size is neither 1 nor the embedding
dimension.  Evaluated here at a batch of 3 graphs with embedding dimension
2: the backward pass of the round trip returns no value at all. -/
theorem gflayer_backward_raises_on_generic_batch :
    GFLayerNSF.backward (idRQS 1) L0
      ((GFLayerNSF.forward (idRQS 1) L0 x31 v31).1) v31 = none := by
  unfold GFLayerNSF.backward
  rw [addBroadcast_mismatch _ _ (by decide) (by decide)]
  rfl

/-- C2: `GF.forward` pushes X through the `flows_L` layers, computes the
edge-predictor loss on those partially-flowed embeddings (before `flows_Z`),
continues through `flows_Z` and the final ActNorm, and returns per graph
exactly (masked Gaussian prior log-probability of the final latent plus the
total accumulated log-determinant) divided by V, minus the edge-predictor
loss. -/
theorem gf_forward_objective_decomposition {Dh hidden K Nb N : ℕ}
    (rqs : UnconstrainedRQS K) (g : GF Dh hidden K)
    (X : Tensor3 Nb N (Dh + Dh)) (A : Adj Nb N) (V : Vec Nb) :
    GF.forward rqs g X A V =
      ((GF.latent rqs g X V).1,
       fun i =>
         (maskedPriorLP (GF.latent rqs g X V).1 V i + (GF.latent rqs g X V).2 i)
             / V i
           - GF.epTerm rqs g X A V i) := by
  rfl

/-- C3: the inverse used by `OneByOneConv.backward` is computed lazily on the
first backward call (cache `None` from `__init__`) and cached in the layer
state; every subsequent backward call reuses whatever matrix is cached, so
after the parameter `W` is updated (here to `W1`) the call still multiplies
by the stale cached `W0⁻¹` unless the cache is explicitly invalidated. -/
theorem onebyoneconv_lazy_cache_staleness {Dm Nb N Nb2 N2 : ℕ}
    (W0 W1 M : Matrix (Fin Dm) (Fin Dm) ℝ)
    (z : Tensor3 Nb N Dm) (v : Vec Nb) (z2 : Tensor3 Nb2 N2 Dm) (v2 : Vec Nb2) :
    ((OneByOneConv.backward ⟨W0, none⟩ z v).1.W_inv = some W0⁻¹
      ∧ (OneByOneConv.backward ⟨W0, none⟩ z v).2.1 =
          fun i j => Matrix.vecMul (z i j) W0⁻¹)
    ∧ ((OneByOneConv.backward
          ⟨W1, (OneByOneConv.backward ⟨W0, none⟩ z v).1.W_inv⟩ z2 v2).1.W_inv
            = some W0⁻¹
      ∧ (OneByOneConv.backward
          ⟨W1, (OneByOneConv.backward ⟨W0, none⟩ z v).1.W_inv⟩ z2 v2).2.1 =
            fun i j => Matrix.vecMul (z2 i j) W0⁻¹)
    ∧ ((OneByOneConv.backward ⟨W1, some M⟩ z2 v2).1.W_inv = some M
      ∧ (OneByOneConv.backward ⟨W1, some M⟩ z2 v2).2.1 =
          fun i j => Matrix.vecMul (z2 i j) M) :=
  ⟨⟨rfl, rfl⟩, ⟨rfl, rfl⟩, rfl, rfl⟩

/-- C4: for every call, `GFLayerNSF.backward` initialises its
log-determinant accumulator as a full (batch, max-nodes, embedding-dim) zero
tensor (`torch.zeros_like(z)`) rather than one scalar per graph, so whenever
a value is returned at all, the backward log-determinant is the broadcast
sum of that full-shape zero tensor with the per-graph (batch,)-shaped masked
spline, linear-mix and ActNorm contributions — and is never a
(batch,)-shaped per-graph scalar like the one forward returns.  The three
conjuncts cover every call: when the batch size equals the embedding
dimension the broadcast aligns the (batch,) vector with the feature axis, so
entry (i, j, k) holds the per-graph total of graph k; when the batch size is
1 the single total broadcasts as a scalar into every entry; for any other
batch size the broadcast raises and no value is returned. -/
theorem gflayer_backward_logdet_fullshape {Dh hidden K : ℕ}
    (rqs : UnconstrainedRQS K) (L : GFLayerNSF Dh hidden K) :
    (∀ (N : ℕ) (z : Tensor3 (Dh + Dh) N (Dh + Dh)) (v : Vec (Dh + Dh)),
        GFLayerNSF.backward rqs L z v =
          some (GFLayerNSF.backwardX rqs L z v,
            fun _i _j k => GFLayerNSF.backwardPerGraphLD rqs L z v k))
    ∧ (∀ (N : ℕ) (z : Tensor3 1 N (Dh + Dh)) (v : Vec 1),
        GFLayerNSF.backward rqs L z v =
          some (GFLayerNSF.backwardX rqs L z v,
            fun _i _j _k => GFLayerNSF.backwardPerGraphLD rqs L z v 0))
    ∧ (∀ (Nb N : ℕ), Nb ≠ 1 → Nb ≠ Dh + Dh →
        ∀ (z : Tensor3 Nb N (Dh + Dh)) (v : Vec Nb),
          GFLayerNSF.backward rqs L z v = none) :=
  ⟨fun _ z v => GFLayerNSF.backward_batch_eq_dim rqs L z v,
   fun _ z v => GFLayerNSF.backward_batch_one rqs L z v,
   fun _ _ hone hdim z v =>
     GFLayerNSF.backward_batch_mismatch rqs L hone hdim z v⟩

/-- Witness for the C4 theorem: its raising conjunct applied at a concrete
batch of 3 graphs with embedding dimension 2. -/
theorem gflayer_backward_logdet_fullshape_witness :
    GFLayerNSF.backward (idRQS 1) L0 x31 v31 = none :=
  (gflayer_backward_logdet_fullshape (idRQS 1) L0).2.2 3 1
    (by decide) (by decide) x31 v31

/-- C7: `GFLayerNSF.forward` applies ActNorm, then the invertible linear
mix, then splits the embedding dimension in half, transforms the upper half
with spline parameters predicted from the f1 attention encoding of the lower
half, then the lower half with parameters from the f2 encoding of the
transformed upper half, and concatenates; `GFLayerNSF.backward` undoes the
operations in the exact mirror order with the same conditioning. -/
theorem gflayer_operation_order {Dh hidden K Nb N N2 : ℕ}
    (rqs : UnconstrainedRQS K) (L : GFLayerNSF Dh hidden K) :
    (∀ (x : Tensor3 Nb N (Dh + Dh)) (v : Vec Nb),
        GFLayerNSF.forward rqs L x v = GFLayerNSF.forwardSpecOrder rqs L x v)
    ∧ (∀ (z : Tensor3 Nb N (Dh + Dh)) (v : Vec Nb),
        GFLayerNSF.backwardX rqs L z v = GFLayerNSF.backwardSpecOrderX rqs L z v)
    ∧ (∀ (z : Tensor3 (Dh + Dh) N2 (Dh + Dh)) (v : Vec (Dh + Dh)),
        (GFLayerNSF.backward rqs L z v).map Prod.fst =
          some (GFLayerNSF.backwardSpecOrderX rqs L z v)) := by
  refine ⟨fun x v => rfl, fun z v => rfl, fun z v => ?_⟩
  rw [GFLayerNSF.backward_batch_eq_dim, Option.map_some']
  rfl

/-- C8: `GF.backward` inverts only the final ActNorm and then each `flows_Z`
coupling layer in reverse order (a right fold over `flows_Z`), returning the
intermediate embedding; it does not invert any `flows_L` layer — replacing
`flows_L` by an arbitrary list leaves the result unchanged. -/
theorem gf_backward_inverts_only_flowsZ {Dh hidden K Nb N : ℕ}
    (rqs : UnconstrainedRQS K) (g : GF Dh hidden K)
    (Z : Tensor3 Nb N (Dh + Dh)) (V : Vec Nb)
    (fl2 : List (GFLayerNSF Dh hidden K)) :
    GF.backward rqs g Z V = GF.backwardSpec rqs g Z V
    ∧ GF.backward rqs ⟨fl2, g.flows_Z, g.final_actnorm, g.ep⟩ Z V =
        GF.backward rqs g Z V :=
  ⟨rfl, rfl⟩

/-- C9: `ActNorm.forward` computes `z = x * exp(log_sigma) + mu`
elementwise, broadcasting the per-feature scale and shift over the batch and
node axes, and returns per graph a log-determinant equal to the sum of
`log_sigma` over the feature axis multiplied by that graph's node count. -/
theorem actnorm_forward_formula {Dm Nb N : ℕ} (p : ActNorm Dm)
    (x : Tensor3 Nb N Dm) (v : Vec Nb) :
    (ActNorm.forward p x v).1 =
        (fun i j k => x i j k * Real.exp (p.log_sigma 0 0 k) + p.mu 0 0 k)
      ∧ (ActNorm.forward p x v).2 = fun i => (∑ k, p.log_sigma 0 0 k) * v i := by
  constructor
  · rfl
  · funext i
    simp [ActNorm.forward]

/-- C6: for the ActNorm layer and the invertible linear-mix layer in
isolation, backward(forward(x, v)) reproduces x exactly and the backward
log-determinant is the exact negation of the forward one (the linear-mix
round trip assumes an invertible W — as guaranteed by the QR initialisation —
and the freshly-constructed empty inverse cache). -/
theorem actnorm_conv_roundtrip {Dm Nb N : ℕ} (p : ActNorm Dm)
    (s : OneByOneConv Dm) (x : Tensor3 Nb N Dm) (v : Vec Nb)
    (hW : IsUnit s.W.det) (hfresh : s.W_inv = none) :
    ((ActNorm.backward p (ActNorm.forward p x v).1 v).1 = x
      ∧ (fun i => (ActNorm.forward p x v).2 i
            + (ActNorm.backward p (ActNorm.forward p x v).1 v).2 i) =
          fun _ => (0 : ℝ))
    ∧ ((OneByOneConv.backward s (OneByOneConv.forward s x v).1 v).2.1 = x
      ∧ (fun i => (OneByOneConv.forward s x v).2 i
            + (OneByOneConv.backward s (OneByOneConv.forward s x v).1 v).2.2 i) =
          fun _ => (0 : ℝ)) := by
  refine ⟨⟨?_, ?_⟩, ?_, ?_⟩
  · funext i j k
    simp only [ActNorm.forward, ActNorm.backward]
    rw [add_sub_cancel_right]
    exact mul_div_cancel_right₀ _ (Real.exp_ne_zero _)
  · funext i
    simp only [ActNorm.forward, ActNorm.backward]
    ring
  · funext i j
    simp only [OneByOneConv.forward, OneByOneConv.backward, hfresh]
    rw [Matrix.vecMul_vecMul, Matrix.mul_nonsing_inv _ hW, Matrix.vecMul_one]
  · funext i
    simp only [OneByOneConv.forward, OneByOneConv.backward]
    ring

/-- An all-zero ActNorm layer over one feature. -/
def p0 : ActNorm 1 := ⟨fun _ _ _ => 0, fun _ _ _ => 0⟩

/-- A one-dimensional linear mix with identity matrix and empty cache. -/
def s0 : OneByOneConv 1 := ⟨1, none⟩

/-- A zero 1x1x1 tensor. -/
def x111 : Tensor3 1 1 1 := fun _ _ _ => 0

/-- A single node count of 1. -/
def v111 : Vec 1 := fun _ => 1

/-- Witness for the C6 theorem at a concrete layer and input. -/
theorem actnorm_conv_roundtrip_witness :
    ((ActNorm.backward p0 (ActNorm.forward p0 x111 v111).1 v111).1 = x111
      ∧ (fun i => (ActNorm.forward p0 x111 v111).2 i
            + (ActNorm.backward p0 (ActNorm.forward p0 x111 v111).1 v111).2 i) =
          fun _ => (0 : ℝ))
    ∧ ((OneByOneConv.backward s0 (OneByOneConv.forward s0 x111 v111).1 v111).2.1
          = x111
      ∧ (fun i => (OneByOneConv.forward s0 x111 v111).2 i
            + (OneByOneConv.backward s0
                (OneByOneConv.forward s0 x111 v111).1 v111).2.2 i) =
          fun _ => (0 : ℝ)) :=
  actnorm_conv_roundtrip p0 s0 x111 v111 (by simp [s0]) rfl

/-- C5: for any coupling layer whose attention encoders respect the validity
mask (the spec's contract for ISAB), any two inputs that agree on all valid
node rows — i.e. differ only in padded rows — produce identical per-graph
log-determinant contributions and identical outputs at every valid row:
padded positions contribute exactly zero to the masked-summed
log-determinant regardless of the spline parameters they receive. -/
theorem gflayer_forward_mask_insensitivity {Dh hidden K Nb N : ℕ}
    (rqs : UnconstrainedRQS K) (L : GFLayerNSF Dh hidden K)
    (h1 : MaskRespects L.f1) (h2 : MaskRespects L.f2)
    (x y : Tensor3 Nb N (Dh + Dh)) (v : Vec Nb)
    (hagree : ∀ i j k, validPos v i j → x i j k = y i j k) :
    (∀ i, (GFLayerNSF.forward rqs L x v).2 i =
        (GFLayerNSF.forward rqs L y v).2 i)
    ∧ ∀ i j k, validPos v i j →
        (GFLayerNSF.forward rqs L x v).1 i j k =
          (GFLayerNSF.forward rqs L y v).1 i j k := by
  have hAct : ∀ i j, validPos v i j →
      (GFLayerNSF.fwAct L x v).1 i j = (GFLayerNSF.fwAct L y v).1 i j := by
    intro i j hv
    funext k
    simp only [GFLayerNSF.fwAct, ActNorm.forward]
    rw [hagree i j k hv]
  have hConv : ∀ i j, validPos v i j →
      (GFLayerNSF.fwConv L x v).1 i j = (GFLayerNSF.fwConv L y v).1 i j := by
    intro i j hv
    simp only [GFLayerNSF.fwConv, OneByOneConv.forward]
    rw [hAct i j hv]
  have hLowH : ∀ i j, validPos v i j →
      lowerOf (GFLayerNSF.fwConv L x v).1 i j =
        lowerOf (GFLayerNSF.fwConv L y v).1 i j := by
    intro i j hv
    funext k
    simp only [lowerOf]
    rw [hConv i j hv]
  have hUpH : ∀ i j, validPos v i j →
      upperOf (GFLayerNSF.fwConv L x v).1 i j =
        upperOf (GFLayerNSF.fwConv L y v).1 i j := by
    intro i j hv
    funext k
    simp only [upperOf]
    rw [hConv i j hv]
  have hP1 : ∀ i j, validPos v i j →
      condParams L L.f1 (lowerOf (GFLayerNSF.fwConv L x v).1) v i j =
        condParams L L.f1 (lowerOf (GFLayerNSF.fwConv L y v).1) v i j := by
    intro i j hv
    funext k
    simp only [condParams]
    rw [h1 N (lowerOf (GFLayerNSF.fwConv L x v).1 i)
      (lowerOf (GFLayerNSF.fwConv L y v).1 i) (validPos v i)
      (fun j2 hj2 => hLowH i j2 hj2) j hv]
  have hUp : ∀ i j, validPos v i j → ∀ k,
      (GFLayerNSF.fwUpper rqs L x v).1 i j k =
        (GFLayerNSF.fwUpper rqs L y v).1 i j k
      ∧ (GFLayerNSF.fwUpper rqs L x v).2 i j k =
          (GFLayerNSF.fwUpper rqs L y v).2 i j k := by
    intro i j hv k
    simp only [GFLayerNSF.fwUpper, applyRQS]
    rw [hP1 i j hv, hUpH i j hv]
    exact ⟨rfl, rfl⟩
  have hMS1 : maskedSum (GFLayerNSF.fwUpper rqs L x v).2 v =
      maskedSum (GFLayerNSF.fwUpper rqs L y v).2 v :=
    maskedSum_congr _ _ v (fun i j hv k => (hUp i j hv k).2)
  have hUpT : ∀ i j, validPos v i j →
      (GFLayerNSF.fwUpper rqs L x v).1 i j =
        (GFLayerNSF.fwUpper rqs L y v).1 i j :=
    fun i j hv => funext fun k => (hUp i j hv k).1
  have hP2 : ∀ i j, validPos v i j →
      condParams L L.f2 (GFLayerNSF.fwUpper rqs L x v).1 v i j =
        condParams L L.f2 (GFLayerNSF.fwUpper rqs L y v).1 v i j := by
    intro i j hv
    funext k
    simp only [condParams]
    rw [h2 N ((GFLayerNSF.fwUpper rqs L x v).1 i)
      ((GFLayerNSF.fwUpper rqs L y v).1 i) (validPos v i)
      (fun j2 hj2 => hUpT i j2 hj2) j hv]
  have hLo : ∀ i j, validPos v i j → ∀ k,
      (GFLayerNSF.fwLower rqs L x v).1 i j k =
        (GFLayerNSF.fwLower rqs L y v).1 i j k
      ∧ (GFLayerNSF.fwLower rqs L x v).2 i j k =
          (GFLayerNSF.fwLower rqs L y v).2 i j k := by
    intro i j hv k
    simp only [GFLayerNSF.fwLower, applyRQS]
    rw [hP2 i j hv, hLowH i j hv]
    exact ⟨rfl, rfl⟩
  have hMS2 : maskedSum (GFLayerNSF.fwLower rqs L x v).2 v =
      maskedSum (GFLayerNSF.fwLower rqs L y v).2 v :=
    maskedSum_congr _ _ v (fun i j hv k => (hLo i j hv k).2)
  constructor
  · intro i
    simp only [GFLayerNSF.forward]
    rw [hMS1, hMS2]
    rfl
  · intro i j k hv
    have hLoT : (GFLayerNSF.fwLower rqs L x v).1 i j =
        (GFLayerNSF.fwLower rqs L y v).1 i j :=
      funext fun k2 => (hLo i j hv k2).1
    simp only [GFLayerNSF.forward, catHalves]
    rw [hLoT, hUpT i j hv]

/-- A zero batch of 1 graph, 2 node slots, embedding dim 2. -/
def x520 : Tensor3 1 2 2 := fun _ _ _ => 0

/-- Like `x520` but perturbed in the padded second row. -/
def x521 : Tensor3 1 2 2 := fun _ j _ => if j.val = 1 then 5 else 0

/-- A single node count of 1 (so row 1 is padding). -/
def v52 : Vec 1 := fun _ => 1

/-- Witness for the C5 theorem: a concrete layer and a concrete pair of
inputs differing only in a padded row. -/
theorem gflayer_forward_mask_insensitivity_witness :
    (GFLayerNSF.forward (idRQS 1) L0 x520 v52).2 0 =
        (GFLayerNSF.forward (idRQS 1) L0 x521 v52).2 0
    ∧ (GFLayerNSF.forward (idRQS 1) L0 x520 v52).1 0 0 0 =
        (GFLayerNSF.forward (idRQS 1) L0 x521 v52).1 0 0 0 := by
  have hmr1 : MaskRespects L0.f1 := fun _ _ _ _ _ _ _ => rfl
  have hmr2 : MaskRespects L0.f2 := fun _ _ _ _ _ _ _ => rfl
  have hag : ∀ i j k, validPos v52 i j → x520 i j k = x521 i j k := by
    intro i j k hv
    have hv2 : ((j : ℕ) : ℝ) < 1 := hv
    have hv3 : (j : ℕ) < 1 := by exact_mod_cast hv2
    have hj : (j : ℕ) = 0 := by omega
    simp [x520, x521, hj]
  have hv00 : validPos v52 (0 : Fin 1) (0 : Fin 2) := by
    show ((0 : Fin 2) : ℝ) < v52 0
    norm_num [v52]
  have h := gflayer_forward_mask_insensitivity (idRQS 1) L0 hmr1 hmr2
    x520 x521 v52 hag
  exact ⟨h.1 0, h.2 0 0 0 hv00⟩

/-- C10: the spec claims that a node count exceeding the padded node
dimension makes the mask construction of `GF.forward` fail fast with a
descriptive error.  The source performs no check: the Python slice
assignment `mask[i, :cnt.int()] = 1` silently clamps the bound, so with 3
node slots and a claimed count of 5 the mask row comes back all-ones and the
computation proceeds. -/
theorem gf_mask_clamped_no_failure :
    (gfMask (fun _ : Fin 1 => (5 : ℝ)) : Fin 1 → Fin 3 → ℝ) =
      fun _ _ => 1 := by
  funext i j
  have h5 : ⌊(5 : ℝ)⌋ = (5 : ℤ) := by norm_num
  have hj : ((j : ℕ) : ℤ) < (5 : ℤ) := by
    have := j.isLt
    omega
  simp [gfMask, h5, hj]

end
